import Mathlib

/-!
Verification of the store-config snapshot manager
(`src/server/config/store_config.go`).

The Go file defines a `StoreConfig` snapshot (four coprocessor fields),
four derived accessors with built-in defaults, a `StoreConfigManager`
holding the current snapshot behind an atomic pointer, `UpdateConfig`
(atomic replace, nil-tolerant), `GetStoreConfig` (atomic read), `Load`
(HTTP GET + JSON decode + replace) and a TLS-aware constructor.

Shallow embedding conventions:
- Go nil pointers become `Option`; a `*StoreConfig` is `Option StoreConfig`.
- Go `uint64` results become `Nat`; the Go conversion `uint64(x)` from a
  signed 64-bit `int` is reduction modulo `2 ^ 64` (`toUInt64`).
- The network GET together with reading the body is one external effect
  `fetch : String → Except String String` (error or full body text), and
  the standard-library JSON decoder is `unmarshal`; both are parameters,
  exactly the points where the Go code calls out of this file.
- The atomic pointer store in `UpdateConfig` is one indivisible step of
  the state, which is precisely what `atomic.StorePointer` of a fully
  constructed struct gives the Go code.
-/

namespace StoreConfigSpec

/-- Source: `defaultRegionMaxSize = uint64(144)` (region max size in MB). -/
def defaultRegionMaxSize : Nat := 144

/-- Source: `defaultRegionSplitSize = uint64(96)` (region split size in MB). -/
def defaultRegionSplitSize : Nat := 96

/-- Source: `defaultRegionMaxKey = uint64(1440000)`. -/
def defaultRegionMaxKey : Nat := 1440000

/-- Source: `defaultRegionSplitKey = uint64(960000)`. -/
def defaultRegionSplitKey : Nat := 960000

/-- Source struct `Coprocessor`: two string-encoded sizes and two Go `int`
(64-bit signed) key counts, decoded from the coprocessor JSON section. -/
structure Coprocessor where
  regionMaxSize : String
  regionSplitSize : String
  regionMaxKeys : Int
  regionSplitKeys : Int
deriving Repr, DecidableEq

/-- Source struct `StoreConfig`, embedding `Coprocessor`. -/
structure StoreConfig where
  coprocessor : Coprocessor
deriving Repr, DecidableEq

/-- Modelled from the spec: `typeutil.ParseMBFromText` lives in `pkg/typeutil`,
which is not under `src/`. Per the spec it parses a number-then-unit size
string (units at least B/KB/MB/GB) into whole megabytes and degrades to the
supplied default when the string is unparseable. -/
def ParseMBFromText (text : String) (value : Nat) : Nat :=
  let digits := text.takeWhile Char.isDigit
  let unit := (text.drop digits.length).trim
  match digits.toNat? with
  | none => value
  | some n =>
    if unit = "MB" then n
    else if unit = "GB" then n * 1024
    else if unit = "KB" then n / 1024
    else if unit = "B" then n / (1024 * 1024)
    else value

/-- Go conversion `uint64(x)` applied to a signed 64-bit integer value:
reduction modulo `2 ^ 64` (`Int.emod` is nonnegative for a positive modulus). -/
def toUInt64 (i : Int) : Nat := (i % (2 ^ 64 : Int)).toNat

/-- Source `GetRegionMaxSize`: default on nil receiver or empty string,
otherwise parse the size text. -/
def GetRegionMaxSize : Option StoreConfig → Nat
  | none => defaultRegionMaxSize
  | some c =>
    if c.coprocessor.regionMaxSize.length = 0 then defaultRegionMaxSize
    else ParseMBFromText c.coprocessor.regionMaxSize defaultRegionMaxSize

/-- Source `GetRegionSplitSize`: default on nil receiver or empty string,
otherwise parse the size text. -/
def GetRegionSplitSize : Option StoreConfig → Nat
  | none => defaultRegionSplitSize
  | some c =>
    if c.coprocessor.regionSplitSize.length = 0 then defaultRegionSplitSize
    else ParseMBFromText c.coprocessor.regionSplitSize defaultRegionSplitSize

/-- Source `GetRegionSplitKeys`: default on nil receiver or zero field,
otherwise `uint64(c.Coprocessor.RegionSplitKeys)`. -/
def GetRegionSplitKeys : Option StoreConfig → Nat
  | none => defaultRegionSplitKey
  | some c =>
    if c.coprocessor.regionSplitKeys = 0 then defaultRegionSplitKey
    else toUInt64 c.coprocessor.regionSplitKeys

/-- Source `GetRegionMaxKeys`: default on nil receiver or zero field,
otherwise `uint64(c.Coprocessor.RegionMaxKeys)`. -/
def GetRegionMaxKeys : Option StoreConfig → Nat
  | none => defaultRegionMaxKey
  | some c =>
    if c.coprocessor.regionMaxKeys = 0 then defaultRegionMaxKey
    else toUInt64 c.coprocessor.regionMaxKeys

/-- Source method `String`: `json.MarshalIndent` is a standard-library
external; its outcome on the receiver is the parameter `marshalIndent`.
On a marshalling error the method returns the literal placeholder. -/
def StoreConfigToString (marshalIndent : StoreConfig → Except String String)
    (c : StoreConfig) : String :=
  match marshalIndent c with
  | .error _ => "<nil>"
  | .ok data => data

/-- Opaque client-side TLS configuration produced by the TLS builder
(`tls.Config` is external to this file; only its identity matters here). -/
structure TLSConfig where
  id : Nat
deriving Repr, DecidableEq

/-- Modelled from the spec: `SecurityConfig.ToTLSConfig` lives in
`pkg/grpcutil`, not under `src/`. Per the spec it is a builder taking an
opaque security configuration and producing a usable client TLS
configuration or an error; we carry its Go-style `(cfg, err)` outcome as
data on the security configuration. -/
structure SecurityConfig where
  toTLSConfig : Option TLSConfig × Option String

/-- Source struct `StoreConfigManager`: the atomic slot holding the current
snapshot, the owned client (plain, or wrapping a TLS configuration) and the
URL scheme. -/
structure StoreConfigManager where
  config : Option StoreConfig
  clientTLS : Option TLSConfig
  schema : String
deriving Repr, DecidableEq

/-- Source `NewStoreConfigManager`: scheme `http` with a plain client by
default; when a security configuration is supplied and its conversion
returns a non-nil TLS configuration with no error, the client wraps it and
the scheme becomes `https`; otherwise the manager is returned as built. -/
def NewStoreConfigManager : Option SecurityConfig → StoreConfigManager
  | none => { config := none, clientTLS := none, schema := "http" }
  | some sc =>
    match sc.toTLSConfig with
    | (some cfg, none) => { config := none, clientTLS := some cfg, schema := "https" }
    | _ => { config := none, clientTLS := none, schema := "http" }

/-- Source `UpdateConfig` (pointer receiver, so the receiver itself may be
nil): no-op when the receiver or the new snapshot is nil, otherwise one
atomic store of the new snapshot reference. -/
def UpdateConfig : Option StoreConfigManager → Option StoreConfig → Option StoreConfigManager
  | none, _ => none
  | some m, none => some m
  | some m, some c => some { m with config := some c }

/-- Source `GetStoreConfig` (pointer receiver): nil on a nil receiver or an
empty slot, otherwise one atomic load of the held snapshot reference. -/
def GetStoreConfig : Option StoreConfigManager → Option StoreConfig
  | none => none
  | some m => m.config

/-- The request URL `Load` builds: `fmt.Sprintf` of scheme, address and the
fixed `/config` path. -/
def loadURL (m : StoreConfigManager) (statusAddress : String) : String :=
  m.schema ++ "://" ++ statusAddress ++ "/config"

/-- Source `Load`: build the URL, perform the GET and read the body
(`fetch`), decode the body (`unmarshal`), and on full success publish the
new snapshot through `UpdateConfig`. Returns the post-call manager state
and the returned error (`none` on success). -/
def Load (m : StoreConfigManager) (statusAddress : String)
    (fetch : String → Except String String)
    (unmarshal : String → Except String StoreConfig) :
    StoreConfigManager × Option String :=
  match fetch (loadURL m statusAddress) with
  | .error e => (m, some e)
  | .ok body =>
    match unmarshal body with
    | .error e => (m, some e)
    | .ok cfg => ((UpdateConfig (some m) (some cfg)).getD m, none)

/-- One externally visible operation on a (non-nil) manager. -/
inductive Op where
  | update (c : Option StoreConfig)
  | load (statusAddress : String) (fetch : String → Except String String)
      (unmarshal : String → Except String StoreConfig)
  | current

/-- The state transition of one operation: `current` reads without writing,
`update` goes through `UpdateConfig`, `load` through `Load`. -/
def step (m : StoreConfigManager) : Op → StoreConfigManager
  | .update c => (UpdateConfig (some m) c).getD m
  | .load addr fetch unmarshal => (Load m addr fetch unmarshal).1
  | .current => m

/-- Runs a sequence of operations from a manager state. -/
def runOps (m : StoreConfigManager) (ops : List Op) : StoreConfigManager :=
  ops.foldl step m

/-- The snapshot an operation publishes, if any: a non-nil `update`
publishes its argument; a `load` publishes the decoded body exactly when
the fetch and the decode both succeed (the URL only depends on the scheme,
which no operation changes). -/
def opReplaces (schema : String) : Op → Option StoreConfig
  | .update c => c
  | .load addr fetch unmarshal =>
    match fetch (schema ++ "://" ++ addr ++ "/config") with
    | .error _ => none
    | .ok body =>
      match unmarshal body with
      | .error _ => none
      | .ok cfg => some cfg
  | .current => none

/-- One event of a concurrent history over the shared slot: an `Update`
call with its whole argument, or a `Current` read. Because `UpdateConfig`
publishes by a single atomic store of a fully constructed snapshot, each
write is one indivisible event. -/
inductive Event where
  | write (c : Option StoreConfig)
  | read

/-- Runs an interleaving of `Update` writes and `Current` reads over the
shared slot, collecting the snapshot each read observes. -/
def runHist : Option StoreConfigManager → List Event → List (Option StoreConfig)
  | _, [] => []
  | m, Event.write c :: rest => runHist (UpdateConfig m c) rest
  | m, Event.read :: rest => GetStoreConfig m :: runHist m rest

/-- Concrete snapshots and effect functions used by the witnesses below. -/
def zeroSnapshot : StoreConfig := ⟨⟨"", "", 0, 0⟩⟩

/-- Concrete snapshot with nonzero key counts. -/
def keysSnapshot : StoreConfig := ⟨⟨"", "", 5000, 960001⟩⟩

/-- Concrete snapshot whose key counts are the Go int value -1. -/
def negSnapshot : StoreConfig := ⟨⟨"", "", -1, -1⟩⟩

/-- Concrete snapshot where only the max-keys field is negative. -/
def mixedNegSnapshot : StoreConfig := ⟨⟨"", "", -1, 1000⟩⟩

/-- Manager built with no security configuration. -/
def httpManager : StoreConfigManager := NewStoreConfigManager none

/-- A fetch that always fails at the transport level. -/
def dialErr : String → Except String String := fun _ => Except.error "dial"

/-- A decoder that always fails. -/
def badUnmarshal : String → Except String StoreConfig :=
  fun _ => Except.error "invalid character"

section Lemmas

/-- No operation changes the URL scheme of the manager. -/
theorem step_schema (m : StoreConfigManager) (op : Op) : (step m op).schema = m.schema := by
  cases op with
  | update c => cases c <;> rfl
  | current => rfl
  | load addr fetch unmarshal =>
    cases hf : fetch (loadURL m addr) with
    | error e => simp [step, Load, hf]
    | ok body =>
      cases hu : unmarshal body with
      | error e => simp [step, Load, hf, hu]
      | ok cfg => simp [step, Load, hf, hu, UpdateConfig]

/-- The held snapshot after one operation: unchanged unless the operation
publishes a snapshot, in which case that snapshot is held. -/
theorem step_config (m : StoreConfigManager) (op : Op) :
    (step m op).config = (opReplaces m.schema op).elim m.config some := by
  cases op with
  | update c => cases c <;> rfl
  | current => rfl
  | load addr fetch unmarshal =>
    cases hf : fetch (m.schema ++ "://" ++ addr ++ "/config") with
    | error e => simp [step, Load, loadURL, opReplaces, hf]
    | ok body =>
      cases hu : unmarshal body with
      | error e => simp [step, Load, loadURL, opReplaces, hf, hu]
      | ok cfg => simp [step, Load, loadURL, opReplaces, hf, hu, UpdateConfig]

/-- A run of operations none of which publishes a snapshot leaves the held
snapshot unchanged. -/
theorem runOps_config_none (ops : List Op) : ∀ m : StoreConfigManager,
    (∀ op ∈ ops, opReplaces m.schema op = none) → (runOps m ops).config = m.config := by
  induction ops with
  | nil => intro m _; rfl
  | cons op rest ih =>
    intro m h
    have hop : opReplaces m.schema op = none := h op (List.mem_cons_self _ _)
    have hcfg : (step m op).config = m.config := by rw [step_config, hop]; rfl
    have hsch : (step m op).schema = m.schema := step_schema m op
    have hrest : (runOps (step m op) rest).config = (step m op).config := by
      refine ih (step m op) ?_
      intro o ho
      rw [hsch]
      exact h o (List.mem_cons_of_mem _ ho)
    exact hrest.trans hcfg

/-- A held snapshot is never lost by running operations. -/
theorem runOps_isSome (ops : List Op) : ∀ m : StoreConfigManager,
    m.config.isSome → (runOps m ops).config.isSome := by
  induction ops with
  | nil => intro m h; exact h
  | cons op rest ih =>
    intro m h
    refine ih (step m op) ?_
    rw [step_config]
    cases opReplaces m.schema op with
    | none => exact h
    | some c => rfl

/-- A freshly constructed manager holds no snapshot. -/
theorem newManager_config (sc : Option SecurityConfig) :
    (NewStoreConfigManager sc).config = none := by
  cases sc with
  | none => rfl
  | some s =>
    simp only [NewStoreConfigManager]
    rcases hab : s.toTLSConfig with ⟨a, b⟩
    cases a <;> cases b <;> rfl

/-- Every value a read of a history observes is the value held at the start
of the history or one that some write of the history stored whole. -/
theorem runHist_mem (evs : List Event) : ∀ (m : Option StoreConfigManager),
    ∀ r ∈ runHist m evs,
      r = GetStoreConfig m ∨ ∃ c, r = some c ∧ Event.write (some c) ∈ evs := by
  induction evs with
  | nil => intro m r hr; simp [runHist] at hr
  | cons e rest ih =>
    intro m r hr
    cases e with
    | write c =>
      simp only [runHist] at hr
      rcases ih (UpdateConfig m c) r hr with h | ⟨c2, hc2, hmem⟩
      · cases c with
        | none =>
          left
          cases m <;> simpa [UpdateConfig] using h
        | some c0 =>
          cases m with
          | none => left; simpa [UpdateConfig] using h
          | some m0 =>
            right
            exact ⟨c0, by simpa [UpdateConfig, GetStoreConfig] using h, by simp⟩
      · exact Or.inr ⟨c2, hc2, List.mem_cons_of_mem _ hmem⟩
    | read =>
      simp only [runHist, List.mem_cons] at hr
      rcases hr with hr | hr
      · exact Or.inl hr
      · rcases ih m r hr with h | ⟨c2, hc2, hmem⟩
        · exact Or.inl h
        · exact Or.inr ⟨c2, hc2, List.mem_cons_of_mem _ hmem⟩

end Lemmas

section Claims

/-- C1: Load issues its GET to the URL built from the scheme, the address and
the fixed /config path; a transport or body-read error is returned unchanged
with the held snapshot untouched; a decode error is returned with the held
snapshot untouched; on successful decode Load returns no error and the held
snapshot observed by GetStoreConfig becomes the decoded one, via UpdateConfig. -/
theorem load_contract (m : StoreConfigManager) (statusAddress : String)
    (fetch : String → Except String String)
    (unmarshal : String → Except String StoreConfig) :
    loadURL m statusAddress = m.schema ++ "://" ++ statusAddress ++ "/config" ∧
    (∀ e, fetch (loadURL m statusAddress) = Except.error e →
      Load m statusAddress fetch unmarshal = (m, some e)) ∧
    (∀ body e, fetch (loadURL m statusAddress) = Except.ok body →
      unmarshal body = Except.error e →
      Load m statusAddress fetch unmarshal = (m, some e)) ∧
    (∀ body cfg, fetch (loadURL m statusAddress) = Except.ok body →
      unmarshal body = Except.ok cfg →
      (Load m statusAddress fetch unmarshal).2 = none ∧
      some (Load m statusAddress fetch unmarshal).1 = UpdateConfig (some m) (some cfg) ∧
      GetStoreConfig (some (Load m statusAddress fetch unmarshal).1) = some cfg) := by
  refine ⟨rfl, ?_, ?_, ?_⟩
  · intro e he
    simp [Load, he]
  · intro body e hb hu
    simp [Load, hb, hu]
  · intro body cfg hb hu
    refine ⟨?_, ?_, ?_⟩ <;> simp [Load, hb, hu, UpdateConfig, GetStoreConfig]

/-- Witness for C1: a concrete failing transport propagates its error and
leaves the manager state exactly as before. -/
theorem load_contract_witness :
    Load httpManager "127.0.0.1:20180" dialErr badUnmarshal
      = (httpManager, some "dial") :=
  (load_contract httpManager "127.0.0.1:20180" dialErr badUnmarshal).2.1 "dial" rfl

/-- C2: on a nil snapshot, and on any snapshot whose size strings are empty
and whose key counts are zero, the four accessors return the documented
defaults 144, 96, 1440000 and 960000. -/
theorem accessors_default (c : StoreConfig)
    (h1 : c.coprocessor.regionMaxSize = "")
    (h2 : c.coprocessor.regionSplitSize = "")
    (h3 : c.coprocessor.regionMaxKeys = 0)
    (h4 : c.coprocessor.regionSplitKeys = 0) :
    GetRegionMaxSize none = 144 ∧ GetRegionSplitSize none = 96 ∧
    GetRegionMaxKeys none = 1440000 ∧ GetRegionSplitKeys none = 960000 ∧
    GetRegionMaxSize (some c) = 144 ∧ GetRegionSplitSize (some c) = 96 ∧
    GetRegionMaxKeys (some c) = 1440000 ∧ GetRegionSplitKeys (some c) = 960000 := by
  refine ⟨rfl, rfl, rfl, rfl, ?_, ?_, ?_, ?_⟩ <;>
    simp [GetRegionMaxSize, GetRegionSplitSize, GetRegionMaxKeys, GetRegionSplitKeys,
      h1, h2, h3, h4, defaultRegionMaxSize, defaultRegionSplitSize,
      defaultRegionMaxKey, defaultRegionSplitKey]

/-- Witness for C2: the all-zero snapshot yields all four defaults. -/
theorem accessors_default_witness :
    GetRegionMaxSize (some zeroSnapshot) = 144 ∧
    GetRegionSplitSize (some zeroSnapshot) = 96 ∧
    GetRegionMaxKeys (some zeroSnapshot) = 1440000 ∧
    GetRegionSplitKeys (some zeroSnapshot) = 960000 :=
  (accessors_default zeroSnapshot rfl rfl rfl rfl).2.2.2.2

/-- C3: after UpdateConfig with a non-nil manager and snapshot, GetStoreConfig
returns exactly that snapshot, and it keeps returning it across any further
operations none of which publishes a snapshot (nil updates, reads, and loads
whose fetch or decode fails). -/
theorem update_then_current (m : StoreConfigManager) (s : StoreConfig) (ops : List Op)
    (h : ∀ op ∈ ops, opReplaces m.schema op = none) :
    GetStoreConfig (UpdateConfig (some m) (some s)) = some s ∧
    GetStoreConfig (some (runOps (step m (Op.update (some s))) ops)) = some s := by
  refine ⟨rfl, ?_⟩
  have hstep : step m (Op.update (some s)) = { m with config := some s } := rfl
  rw [hstep]
  have hrun : (runOps { m with config := some s } ops).config = some s :=
    runOps_config_none ops { m with config := some s } h
  simpa [GetStoreConfig] using hrun

/-- Witness for C3: a concrete update survives a nil update, a read and a
failing load. -/
theorem update_then_current_witness :
    GetStoreConfig (some (runOps (step httpManager (Op.update (some keysSnapshot)))
      [Op.update none, Op.current, Op.load "a" dialErr badUnmarshal])) = some keysSnapshot := by
  refine (update_then_current httpManager keysSnapshot
    [Op.update none, Op.current, Op.load "a" dialErr badUnmarshal] ?_).2
  intro op hop
  fin_cases hop <;> rfl

/-- C5: UpdateConfig with a nil snapshot, or on a nil manager, changes
nothing: the manager value and hence the GetStoreConfig observation are left
exactly as they were, for every prior state. -/
theorem update_nil_noop (m : Option StoreConfigManager) (c : Option StoreConfig) :
    UpdateConfig m none = m ∧ UpdateConfig none c = none ∧
    GetStoreConfig (UpdateConfig m none) = GetStoreConfig m ∧
    GetStoreConfig (UpdateConfig none c) = GetStoreConfig (none : Option StoreConfigManager) := by
  refine ⟨?_, ?_, ?_, ?_⟩ <;> cases m <;> rfl

/-- C4: in every interleaving of Update writes and Current reads over the
shared slot of a freshly constructed manager, each snapshot a read observes
is either absent (the initial state) or exactly one that was passed whole to
some Update call of the history; the store being one indivisible event, no
observation mixes fields of two different Update calls. -/
theorem current_observes_whole_updates (sc : Option SecurityConfig)
    (evs : List Event) (r : Option StoreConfig)
    (hr : r ∈ runHist (some (NewStoreConfigManager sc)) evs) :
    r = none ∨ ∃ c, r = some c ∧ Event.write (some c) ∈ evs := by
  rcases runHist_mem evs _ r hr with h | h
  · left
    rw [h]
    exact newManager_config sc
  · exact Or.inr h

/-- Witness for C4: a read after one concrete write observes that write. -/
theorem current_observes_whole_updates_witness :
    some keysSnapshot = none ∨ ∃ c, some keysSnapshot = some c ∧
      Event.write (some c) ∈ [Event.write (some keysSnapshot), Event.read] :=
  current_observes_whole_updates none [Event.write (some keysSnapshot), Event.read]
    (some keysSnapshot) (List.Mem.head _)

/-- C6: once the manager holds a snapshot, no sequence of load, update or
read operations returns it to the unloaded state; and a single step changes
the held snapshot only when the operation publishes one (a successful load
or a non-nil update), a failed load or nil update changing nothing. -/
theorem loaded_stays_loaded (m : StoreConfigManager) (ops : List Op)
    (h : (GetStoreConfig (some m)).isSome) :
    (GetStoreConfig (some (runOps m ops))).isSome ∧
    ∀ op : Op, (step m op).config = (opReplaces m.schema op).elim m.config some :=
  ⟨runOps_isSome ops m h, step_config m⟩

/-- Witness for C6: a loaded manager stays loaded across a nil update, a
failing load and a read. -/
theorem loaded_stays_loaded_witness :
    (GetStoreConfig (some (runOps { httpManager with config := some keysSnapshot }
      [Op.update none, Op.load "a" dialErr badUnmarshal, Op.current]))).isSome :=
  (loaded_stays_loaded { httpManager with config := some keysSnapshot }
    [Op.update none, Op.load "a" dialErr badUnmarshal, Op.current] rfl).1

/-- C7: construction is total and fixes the scheme: no security configuration
gives scheme http with a plain client; a conversion succeeding with a non-nil
TLS configuration gives scheme https with the client wrapping it; a failing
conversion still constructs the manager, silently on the plain http client. -/
theorem construction_scheme (sc : SecurityConfig) :
    (NewStoreConfigManager none).schema = "http" ∧
    (NewStoreConfigManager none).clientTLS = none ∧
    (∀ cfg : TLSConfig, sc.toTLSConfig = (some cfg, none) →
      (NewStoreConfigManager (some sc)).schema = "https" ∧
      (NewStoreConfigManager (some sc)).clientTLS = some cfg) ∧
    (∀ e : String, sc.toTLSConfig.2 = some e →
      (NewStoreConfigManager (some sc)).schema = "http" ∧
      (NewStoreConfigManager (some sc)).clientTLS = none) := by
  refine ⟨rfl, rfl, ?_, ?_⟩
  · intro cfg hcfg
    simp [NewStoreConfigManager, hcfg]
  · intro e he
    simp only [NewStoreConfigManager]
    rcases hab : sc.toTLSConfig with ⟨a, b⟩
    rw [hab] at he
    have hb : b = some e := he
    subst hb
    cases a <;> exact ⟨rfl, rfl⟩

/-- Witness for C7: a successful conversion yields https, a failing one
yields http. -/
theorem construction_scheme_witness :
    (NewStoreConfigManager (some (SecurityConfig.mk (some (TLSConfig.mk 0), none)))).schema
      = "https" ∧
    (NewStoreConfigManager (some (SecurityConfig.mk (none, some "bad cert")))).schema
      = "http" :=
  ⟨((construction_scheme (SecurityConfig.mk (some (TLSConfig.mk 0), none))).2.2.1
      (TLSConfig.mk 0) rfl).1,
   ((construction_scheme (SecurityConfig.mk (none, some "bad cert"))).2.2.2
      "bad cert" rfl).1⟩

/-- C8: for nonzero key fields the accessors return the field value under the
Go uint64 conversion, which for nonnegative 64-bit values is exactly the
value widened; for zero fields (unset and explicit zero being the same
value) the defaults 1440000 and 960000 are returned. -/
theorem keys_nonzero_widened (c : StoreConfig) :
    (c.coprocessor.regionMaxKeys ≠ 0 →
      GetRegionMaxKeys (some c) = toUInt64 c.coprocessor.regionMaxKeys) ∧
    (c.coprocessor.regionSplitKeys ≠ 0 →
      GetRegionSplitKeys (some c) = toUInt64 c.coprocessor.regionSplitKeys) ∧
    (0 ≤ c.coprocessor.regionMaxKeys → c.coprocessor.regionMaxKeys < 2 ^ 64 →
      toUInt64 c.coprocessor.regionMaxKeys = c.coprocessor.regionMaxKeys.toNat) ∧
    (0 ≤ c.coprocessor.regionSplitKeys → c.coprocessor.regionSplitKeys < 2 ^ 64 →
      toUInt64 c.coprocessor.regionSplitKeys = c.coprocessor.regionSplitKeys.toNat) ∧
    (c.coprocessor.regionMaxKeys = 0 → GetRegionMaxKeys (some c) = 1440000) ∧
    (c.coprocessor.regionSplitKeys = 0 → GetRegionSplitKeys (some c) = 960000) := by
  refine ⟨?_, ?_, ?_, ?_, ?_, ?_⟩
  · intro h
    simp [GetRegionMaxKeys, h]
  · intro h
    simp [GetRegionSplitKeys, h]
  · intro h1 h2
    simp only [toUInt64]
    omega
  · intro h1 h2
    simp only [toUInt64]
    omega
  · intro h
    simp [GetRegionMaxKeys, h, defaultRegionMaxKey]
  · intro h
    simp [GetRegionSplitKeys, h, defaultRegionSplitKey]

/-- Witness for C8: concrete nonzero key counts come back unchanged. -/
theorem keys_nonzero_widened_witness :
    GetRegionMaxKeys (some keysSnapshot) = 5000 ∧
    GetRegionSplitKeys (some keysSnapshot) = 960001 := by
  refine ⟨?_, ?_⟩
  · rw [(keys_nonzero_widened keysSnapshot).1 (by decide)]
    decide
  · rw [(keys_nonzero_widened keysSnapshot).2.1 (by decide)]
    decide

/-- C9: the String rendering returns the serialized text the marshaller
produced, and on any serialization failure returns the literal placeholder
rather than failing; the rendering is a total function. -/
theorem string_render_contract (marshalIndent : StoreConfig → Except String String)
    (c : StoreConfig) :
    (∀ e, marshalIndent c = Except.error e →
      StoreConfigToString marshalIndent c = "<nil>") ∧
    (∀ data, marshalIndent c = Except.ok data →
      StoreConfigToString marshalIndent c = data) := by
  constructor
  · intro e he
    simp [StoreConfigToString, he]
  · intro data hd
    simp [StoreConfigToString, hd]

/-- Witness for C9: a failing marshaller yields the placeholder and a
succeeding one yields its text. -/
theorem string_render_contract_witness :
    StoreConfigToString (fun _ => Except.error "boom") zeroSnapshot = "<nil>" ∧
    StoreConfigToString (fun _ => Except.ok "rendered") zeroSnapshot = "rendered" :=
  ⟨(string_render_contract (fun _ => Except.error "boom") zeroSnapshot).1 "boom" rfl,
   (string_render_contract (fun _ => Except.ok "rendered") zeroSnapshot).2 "rendered" rfl⟩

/-- C10: for a negative 64-bit key field the corresponding accessor does not
return the default: the signed value is converted to uint64, so the result
is the wraparound value 2 ^ 64 plus the field; each field is governed only
by its own sign. -/
theorem negative_keys_wraparound (c : StoreConfig) :
    (-(2 ^ 63) ≤ c.coprocessor.regionMaxKeys → c.coprocessor.regionMaxKeys < 0 →
      GetRegionMaxKeys (some c) = (2 ^ 64 + c.coprocessor.regionMaxKeys).toNat ∧
      GetRegionMaxKeys (some c) ≠ defaultRegionMaxKey) ∧
    (-(2 ^ 63) ≤ c.coprocessor.regionSplitKeys → c.coprocessor.regionSplitKeys < 0 →
      GetRegionSplitKeys (some c) = (2 ^ 64 + c.coprocessor.regionSplitKeys).toNat ∧
      GetRegionSplitKeys (some c) ≠ defaultRegionSplitKey) := by
  constructor
  · intro hlo hneg
    have h0 : ¬ c.coprocessor.regionMaxKeys = 0 := by omega
    simp only [GetRegionMaxKeys, if_neg h0, toUInt64, defaultRegionMaxKey]
    exact ⟨by omega, by omega⟩
  · intro hlo hneg
    have h0 : ¬ c.coprocessor.regionSplitKeys = 0 := by omega
    simp only [GetRegionSplitKeys, if_neg h0, toUInt64, defaultRegionSplitKey]
    exact ⟨by omega, by omega⟩

/-- Witness for C10: a max-keys field of -1 yields 18446744073709551615 even
when the split-keys field is positive, and likewise for the split-keys
field on the all-negative snapshot. -/
theorem negative_keys_wraparound_witness :
    GetRegionMaxKeys (some mixedNegSnapshot) = 18446744073709551615 ∧
    GetRegionSplitKeys (some negSnapshot) = 18446744073709551615 := by
  refine ⟨?_, ?_⟩
  · rw [((negative_keys_wraparound mixedNegSnapshot).1 (by decide) (by decide)).1]
    decide
  · rw [((negative_keys_wraparound negSnapshot).2 (by decide) (by decide)).1]
    decide

end Claims

end StoreConfigSpec
